import Mathlib

/-!
Shallow embedding of the stream-consumption and prompt-construction core of
the AXIS single-page translator (src/index.tsx, `handleTranslate` and the
surrounding `App` component).  Strings are modelled by Lean `String`
(operating on `String.data`, the underlying character list), streamed
fragments by `Option String` (the SDK chunk's `text` field may be absent),
and the per-render React state by an explicit `AppState` record.
-/

/-- The fixed language list (src/index.tsx lines 7-27). -/
def LANGUAGES : List String :=
  ["Natural Language", "JavaScript", "TypeScript", "Python", "Java", "C++",
   "C#", "Go", "Rust", "Swift", "Kotlin", "PHP", "Ruby", "SQL", "HTML",
   "CSS", "Bash", "JSON", "YAML"]

/-- The sentinel language denoting free text rather than a programming
language. -/
def naturalLanguage : String := "Natural Language"

/-- JS whitespace as recognised by `String.prototype.trim` (WhiteSpace and
LineTerminator code points). -/
def jsWhitespaceChar (c : Char) : Bool :=
  c == ' ' || c == '\t' || c == '\n' || c == '\r' || c == '\x0b' || c == '\x0c'
  || c == '\xa0' || c == '\u1680' || (('\u2000' ≤ c) && (c ≤ '\u200a'))
  || c == '\u2028' || c == '\u2029' || c == '\u202f' || c == '\u205f'
  || c == '\u3000' || c == '\ufeff'

/-- JS `inputCode.trim()` (src/index.tsx line 171): drop whitespace from both
ends. -/
def jsTrim (s : String) : String :=
  String.mk (((s.data.dropWhile jsWhitespaceChar).reverse.dropWhile
    jsWhitespaceChar).reverse)

/-- The triple-backtick fence marker. -/
def fence : String := "```"

/-- JS `displayCode.startsWith(fence)` (src/index.tsx line 219). -/
def startsWithFence (s : String) : Bool :=
  fence.data.isPrefixOf s.data

/-- Whether the text ends with a closing fence: the end-anchored JS regex
on line 225 matches exactly when the string ends with three backticks. -/
def endsWithFence (s : String) : Bool :=
  fence.data.isSuffixOf s.data

/-- JS regex word character `\w`, i.e. `[A-Za-z0-9_]`. -/
def isWordChar (c : Char) : Bool :=
  c.isAlpha || c.isDigit || c == '_'

/-- The opening-fence strip of src/index.tsx lines 219-221: when the text
starts with a fence, remove the fence, a greedy run of word characters (the
language tag) and one optional newline. -/
def stripOpenFence (s : String) : String :=
  if startsWithFence s then
    match (s.data.drop 3).dropWhile isWordChar with
    | '\n' :: rest => String.mk rest
    | rest => String.mk rest
  else s

/-- The closing-fence strip of src/index.tsx line 225: the end-anchored
regex removes one trailing triple-backtick when the string ends with one. -/
def stripCloseFence (s : String) : String :=
  if endsWithFence s then String.mk (s.data.take (s.data.length - 3)) else s

/-- The display value published by `setOutputCode` for a given accumulated
text (src/index.tsx lines 218-225). -/
def displayOf (s : String) : String :=
  stripCloseFence (stripOpenFence s)

/-- JS `chunk.text || ''` (src/index.tsx line 212): an absent, null or empty
text field contributes the empty string. -/
def chunkText : Option String → String
  | none => ""
  | some t => t

/-- The accumulator `fullText` after folding a list of fragments onto an
initial value (src/index.tsx lines 210-213: `fullText += text`). -/
def accumFrom (acc : String) : List (Option String) → String
  | [] => acc
  | c :: cs => accumFrom (acc ++ chunkText c) cs

/-- The accumulator after a whole fragment list, starting from the empty
string set up before the loop. -/
def accumulate (chunks : List (Option String)) : String :=
  accumFrom "" chunks

/-- The sequence of values passed to `setOutputCode`, one per fragment, when
the loop starts with accumulator `acc` (src/index.tsx lines 211-226). -/
def publishesFrom (acc : String) : List (Option String) → List String
  | [] => []
  | c :: cs =>
      displayOf (acc ++ chunkText c) :: publishesFrom (acc ++ chunkText c) cs

/-- The published display values of a whole stream. -/
def publishes (chunks : List (Option String)) : List String :=
  publishesFrom "" chunks

/-- The final `outputCode` after the loop: the last published value, or the
cleared empty string from `setOutputCode('')` when no fragment arrived. -/
def lastPublish (chunks : List (Option String)) : String :=
  (publishes chunks).getLastD ""

/-- The explanation system instruction (src/index.tsx line 198). -/
def explainSysInstruction : String :=
  "You are a helpful coding assistant. Explain code clearly and concisely."

/-- The raw-code-only system instruction (src/index.tsx line 199). -/
def rawCodeSysInstruction : String :=
  "You are a coding expert. Output ONLY the raw code. Do not use markdown code blocks (```). Do not add explanations or conversational text."

/-- The prompt template if-chain (src/index.tsx lines 187-194). -/
def buildPrompt (inLang outLang src : String) : String :=
  if inLang = naturalLanguage then
    "Generate " ++ outLang ++ " code that performs the following task:\n\n" ++ src
  else if outLang = naturalLanguage then
    "Explain the following " ++ inLang ++ " code in clear, concise natural language:\n\n" ++ src
  else
    "Translate the following " ++ inLang ++ " code to " ++ outLang ++ ".\n\n" ++ src

/-- The system-instruction ternary (src/index.tsx lines 197-199). -/
def buildSystemInstruction (outLang : String) : String :=
  if outLang = naturalLanguage then explainSysInstruction
  else rawCodeSysInstruction

/-- Which of the three template branches fires, mirroring the if-chain of
lines 188-194: 0 = generate, 1 = explain, 2 = translate. -/
def promptBranchIdx (inLang outLang : String) : Nat :=
  if inLang = naturalLanguage then 0
  else if outLang = naturalLanguage then 1
  else 2

/-- The React state read and written by `handleTranslate` (src/index.tsx
lines 122-127). -/
structure AppState where
  inputLanguage : String
  outputLanguage : String
  inputCode : String
  outputCode : String
  loading : Bool
  toast : String
deriving DecidableEq

/-- The fate of the streaming call: it either yields its fragments and ends
normally, or throws after delivering a prefix of fragments. -/
inductive StreamOutcome where
  | ok (chunks : List (Option String)) : StreamOutcome
  | err (chunks : List (Option String)) : StreamOutcome
deriving DecidableEq

/-- Toast shown for blank input (src/index.tsx line 172). -/
def emptyInputMsg : String := "Please enter code to translate."

/-- Toast shown for identical non-sentinel languages (src/index.tsx
line 176). -/
def sameLangMsg : String := "Input and output languages must be different."

/-- Toast shown when the stream throws (src/index.tsx line 232). -/
def failMsg : String := "Translation failed. Check API key or network."

/-- `handleTranslate` (src/index.tsx lines 170-236) as a state transformer:
validation guards, then `setLoading(true)`, `setOutputCode('')`, the stream
loop, `triggerConfetti` or the catch, and `setLoading(false)` in the
finally block.  The net state after the async function settles. -/
def handleTranslate (st : AppState) (outcome : StreamOutcome) : AppState :=
  if jsTrim st.inputCode = "" then
    { st with toast := emptyInputMsg }
  else if st.inputLanguage = st.outputLanguage ∧ st.inputLanguage ≠ naturalLanguage then
    { st with toast := sameLangMsg }
  else
    match outcome with
    | StreamOutcome.ok chunks =>
        { st with loading := false, outputCode := lastPublish chunks }
    | StreamOutcome.err chunks =>
        { st with loading := false, outputCode := lastPublish chunks,
                  toast := failMsg }

/-- The ordered list of `setToast` calls `handleTranslate` makes. -/
def toastEvents (st : AppState) (outcome : StreamOutcome) : List String :=
  if jsTrim st.inputCode = "" then [emptyInputMsg]
  else if st.inputLanguage = st.outputLanguage ∧ st.inputLanguage ≠ naturalLanguage then
    [sameLangMsg]
  else
    match outcome with
    | StreamOutcome.ok _ => []
    | StreamOutcome.err _ => [failMsg]

/-- The busy flag the UI consults (src/index.tsx line 126 and the
`disabled` attributes). -/
def isBusy (st : AppState) : Bool := st.loading

/-- A user submission through the Apply button (src/index.tsx line 308):
`disabled` is `loading`, so a click while busy does nothing and otherwise
runs `handleTranslate`. -/
def submit (st : AppState) (outcome : StreamOutcome) : AppState :=
  if isBusy st then st else handleTranslate st outcome

example : displayOf "```python\nprint(1)\n```" = "print(1)\n" := by decide
example : displayOf "```py\nx = 1" = "x = 1" := by decide
example : displayOf "a```b" = "a```b" := by decide
example : displayOf "a```b```" = "a```b" := by decide
example : jsTrim "  \t\n " = "" := by decide

theorem accumFrom_append (l1 l2 : List (Option String)) :
    ∀ acc, accumFrom acc (l1 ++ l2) = accumFrom (accumFrom acc l1) l2 := by
  induction l1 with
  | nil => intro acc; rfl
  | cons c cs ih => intro acc; simp only [List.cons_append, accumFrom]; exact ih _

theorem publishesFrom_length (chunks : List (Option String)) :
    ∀ acc, (publishesFrom acc chunks).length = chunks.length := by
  induction chunks with
  | nil => intro acc; rfl
  | cons c cs ih =>
      intro acc
      simp only [publishesFrom, List.length_cons]
      rw [ih]

theorem publishesFrom_getElem (chunks : List (Option String)) :
    ∀ acc k, k < chunks.length →
      (publishesFrom acc chunks)[k]? =
        some (displayOf (accumFrom acc (chunks.take (k + 1)))) := by
  induction chunks with
  | nil => intro acc k hk; exact absurd hk (by simp)
  | cons c cs ih =>
      intro acc k hk
      cases k with
      | zero => simp [publishesFrom, accumFrom]
      | succ k =>
          have hk' : k < cs.length := Nat.lt_of_succ_lt_succ hk
          simp only [publishesFrom, List.getElem?_cons_succ, List.take_succ_cons,
            accumFrom]
          exact ih _ k hk'

theorem publishesFrom_getLastD (c : Option String) (cs : List (Option String)) :
    ∀ acc d, (publishesFrom acc (c :: cs)).getLastD d
      = displayOf (accumFrom acc (c :: cs)) := by
  induction cs generalizing c with
  | nil => intro acc d; rfl
  | cons c2 cs2 ih =>
      intro acc d
      have h1 : publishesFrom acc (c :: c2 :: cs2)
          = displayOf (acc ++ chunkText c)
            :: publishesFrom (acc ++ chunkText c) (c2 :: cs2) := rfl
      have h2 : accumFrom acc (c :: c2 :: cs2)
          = accumFrom (acc ++ chunkText c) (c2 :: cs2) := rfl
      rw [h1, h2, List.getLastD_cons]
      exact ih c2 _ _

theorem lastPublish_eq (chunks : List (Option String)) :
    lastPublish chunks
      = if chunks.isEmpty then "" else displayOf (accumulate chunks) := by
  cases chunks with
  | nil => rfl
  | cons c cs =>
      have := publishesFrom_getLastD c cs "" ""
      simpa [lastPublish, publishes, accumulate] using this

theorem accumFrom_map_some (frags : List String) :
    ∀ acc, accumFrom acc (frags.map some) = frags.foldl (fun r s => r ++ s) acc := by
  induction frags with
  | nil => intro acc; rfl
  | cons f fs ih =>
      intro acc
      simp only [List.map_cons, accumFrom, chunkText, List.foldl_cons]
      exact ih _

/-- Claim C1: after every fragment the display value is recomputed from the
full current accumulated text by the fence strip (`displayOf`), the stored
accumulator itself being left untouched; for accumulator
"```python\nprint(1)\n```" the display value is "print(1)\n", and for
"```py\nx = 1" it is "x = 1". -/
theorem claim1_display_recomputed (chunks : List (Option String)) (k : Nat)
    (hk : k < chunks.length) :
    (publishes chunks)[k]? = some (displayOf (accumulate (chunks.take (k + 1))))
    ∧ displayOf "```python\nprint(1)\n```" = "print(1)\n"
    ∧ displayOf "```py\nx = 1" = "x = 1" :=
  ⟨publishesFrom_getElem chunks "" k hk, by decide, by decide⟩

theorem claim1_witness :
    0 < ([some "abc"] : List (Option String)).length
    ∧ ((publishes [some "abc"])[0]?
        = some (displayOf (accumulate (([some "abc"] : List (Option String)).take (0 + 1))))
       ∧ displayOf "```python\nprint(1)\n```" = "print(1)\n"
       ∧ displayOf "```py\nx = 1" = "x = 1") :=
  ⟨by decide, claim1_display_recomputed [some "abc"] 0 (by decide)⟩

/-- Claim C2: the accumulator after any ordered fragment sequence F1..Fn is
the exact concatenation F1 ++ ... ++ Fn, with no loss, reordering or
deduplication, whatever the chunk boundaries. -/
theorem claim2_accumulator_is_concat (frags : List String) :
    accumulate (frags.map some) = String.join frags := by
  have h := accumFrom_map_some frags ""
  unfold String.join
  exact h

/-- Claim C3: a submission while `isBusy` holds (the Apply button is
`disabled={loading}`) leaves the state, including the published output,
exactly as it was: no stream starts and no InFlight-to-InFlight transition
is possible. -/
theorem claim3_busy_submit_noop (st : AppState) (o : StreamOutcome)
    (h : isBusy st = true) :
    submit st o = st ∧ isBusy (submit st o) = isBusy st := by
  have hs : submit st o = st := by simp [submit, h]
  exact ⟨hs, by rw [hs]⟩

theorem claim3_witness :
    isBusy (AppState.mk "JavaScript" "Python" "let x = 1" "x = " true "") = true
    ∧ (submit (AppState.mk "JavaScript" "Python" "let x = 1" "x = " true "")
          (StreamOutcome.ok [some "1"])
        = AppState.mk "JavaScript" "Python" "let x = 1" "x = " true ""
       ∧ isBusy (submit (AppState.mk "JavaScript" "Python" "let x = 1" "x = " true "")
            (StreamOutcome.ok [some "1"]))
          = isBusy (AppState.mk "JavaScript" "Python" "let x = 1" "x = " true "")) :=
  ⟨rfl, claim3_busy_submit_noop _ _ rfl⟩

/-- Claim C4: when the stream throws after delivering some fragments, the
handler aborts: the published output is the display value of exactly the
fragments received before the error (no rollback, and the cleared empty
output when the error precedes the first fragment), loading returns to
false so the session is submittable again, and the single generic failure
toast is the only notice raised — no retry is modelled anywhere in the
handler. -/
theorem claim4_stream_error (st : AppState) (chunks : List (Option String))
    (h1 : ¬ jsTrim st.inputCode = "")
    (h2 : ¬ (st.inputLanguage = st.outputLanguage ∧ st.inputLanguage ≠ naturalLanguage)) :
    (handleTranslate st (StreamOutcome.err chunks)).loading = false
    ∧ isBusy (handleTranslate st (StreamOutcome.err chunks)) = false
    ∧ (handleTranslate st (StreamOutcome.err chunks)).toast = failMsg
    ∧ (handleTranslate st (StreamOutcome.err chunks)).outputCode
        = (if chunks.isEmpty then "" else displayOf (accumulate chunks))
    ∧ toastEvents st (StreamOutcome.err chunks) = [failMsg] := by
  have hht : handleTranslate st (StreamOutcome.err chunks)
      = { st with loading := false, outputCode := lastPublish chunks,
                  toast := failMsg } := by
    simp [handleTranslate, h1, h2]
  refine ⟨by rw [hht], by rw [hht]; rfl, by rw [hht], ?_, by simp [toastEvents, h1, h2]⟩
  rw [hht]
  exact lastPublish_eq chunks

theorem claim4_witness :
    ¬ jsTrim (AppState.mk "JavaScript" "Python" "let x = 1" "" false "").inputCode = ""
    ∧ ¬ ((AppState.mk "JavaScript" "Python" "let x = 1" "" false "").inputLanguage
          = (AppState.mk "JavaScript" "Python" "let x = 1" "" false "").outputLanguage
        ∧ (AppState.mk "JavaScript" "Python" "let x = 1" "" false "").inputLanguage
          ≠ naturalLanguage)
    ∧ ((handleTranslate (AppState.mk "JavaScript" "Python" "let x = 1" "" false "")
          (StreamOutcome.err [some "pri", some "nt(1)"])).loading = false
       ∧ isBusy (handleTranslate (AppState.mk "JavaScript" "Python" "let x = 1" "" false "")
          (StreamOutcome.err [some "pri", some "nt(1)"])) = false
       ∧ (handleTranslate (AppState.mk "JavaScript" "Python" "let x = 1" "" false "")
          (StreamOutcome.err [some "pri", some "nt(1)"])).toast = failMsg
       ∧ (handleTranslate (AppState.mk "JavaScript" "Python" "let x = 1" "" false "")
          (StreamOutcome.err [some "pri", some "nt(1)"])).outputCode
            = (if ([some "pri", some "nt(1)"] : List (Option String)).isEmpty then ""
               else displayOf (accumulate [some "pri", some "nt(1)"]))
       ∧ toastEvents (AppState.mk "JavaScript" "Python" "let x = 1" "" false "")
          (StreamOutcome.err [some "pri", some "nt(1)"]) = [failMsg]) :=
  ⟨by decide, by decide,
   claim4_stream_error _ [some "pri", some "nt(1)"] (by decide) (by decide)⟩

/-- Claim C5: a request with equal non-sentinel input and output languages is
rejected synchronously: the resulting state does not depend on the stream at
all, loading and the previous output are unchanged, a descriptive toast is
raised, and exactly one notice is produced. -/
theorem claim5_same_language_reject (st : AppState) (o o' : StreamOutcome)
    (heq : st.inputLanguage = st.outputLanguage)
    (hns : st.inputLanguage ≠ naturalLanguage) :
    handleTranslate st o = handleTranslate st o'
    ∧ (handleTranslate st o).loading = st.loading
    ∧ (handleTranslate st o).outputCode = st.outputCode
    ∧ ((handleTranslate st o).toast = emptyInputMsg
       ∨ (handleTranslate st o).toast = sameLangMsg)
    ∧ (toastEvents st o).length = 1 := by
  have hcond : st.inputLanguage = st.outputLanguage
      ∧ st.inputLanguage ≠ naturalLanguage := ⟨heq, hns⟩
  by_cases hE : jsTrim st.inputCode = ""
  · simp [handleTranslate, toastEvents, hE]
  · have hh : ∀ oo : StreamOutcome,
        handleTranslate st oo = { st with toast := sameLangMsg } := by
      intro oo
      unfold handleTranslate
      rw [if_neg hE, if_pos hcond]
    have ht : toastEvents st o = [sameLangMsg] := by
      unfold toastEvents
      rw [if_neg hE, if_pos hcond]
    rw [hh o, hh o', ht]
    exact ⟨rfl, rfl, rfl, Or.inr rfl, rfl⟩

theorem claim5_witness :
    (AppState.mk "Python" "Python" "x = 1" "prev" false "").inputLanguage
      = (AppState.mk "Python" "Python" "x = 1" "prev" false "").outputLanguage
    ∧ (AppState.mk "Python" "Python" "x = 1" "prev" false "").inputLanguage
      ≠ naturalLanguage
    ∧ (handleTranslate (AppState.mk "Python" "Python" "x = 1" "prev" false "")
          (StreamOutcome.ok [some "y"])
        = handleTranslate (AppState.mk "Python" "Python" "x = 1" "prev" false "")
          (StreamOutcome.err [])
       ∧ (handleTranslate (AppState.mk "Python" "Python" "x = 1" "prev" false "")
          (StreamOutcome.ok [some "y"])).loading
        = (AppState.mk "Python" "Python" "x = 1" "prev" false "").loading
       ∧ (handleTranslate (AppState.mk "Python" "Python" "x = 1" "prev" false "")
          (StreamOutcome.ok [some "y"])).outputCode
        = (AppState.mk "Python" "Python" "x = 1" "prev" false "").outputCode
       ∧ ((handleTranslate (AppState.mk "Python" "Python" "x = 1" "prev" false "")
            (StreamOutcome.ok [some "y"])).toast = emptyInputMsg
          ∨ (handleTranslate (AppState.mk "Python" "Python" "x = 1" "prev" false "")
            (StreamOutcome.ok [some "y"])).toast = sameLangMsg)
       ∧ (toastEvents (AppState.mk "Python" "Python" "x = 1" "prev" false "")
            (StreamOutcome.ok [some "y"])).length = 1) :=
  ⟨rfl, by decide,
   claim5_same_language_reject _ (StreamOutcome.ok [some "y"]) (StreamOutcome.err [])
     rfl (by decide)⟩

/-- Claim C6: a sourceText that is empty or all whitespace trims to the empty
string; the handler then rejects synchronously with the empty-input toast as
the only state change — loading and the previous output are untouched and
the result is independent of any stream. -/
theorem claim6_blank_input_reject (st : AppState) (o o' : StreamOutcome)
    (h : st.inputCode.data.all jsWhitespaceChar = true) :
    jsTrim st.inputCode = ""
    ∧ handleTranslate st o = { st with toast := emptyInputMsg }
    ∧ handleTranslate st o' = handleTranslate st o
    ∧ (handleTranslate st o).loading = st.loading
    ∧ (handleTranslate st o).outputCode = st.outputCode
    ∧ toastEvents st o = [emptyInputMsg] := by
  have hall : ∀ x ∈ st.inputCode.data, jsWhitespaceChar x := by
    simpa [List.all_eq_true] using h
  have h1 : st.inputCode.data.dropWhile jsWhitespaceChar = [] := by
    rw [List.dropWhile_eq_nil_iff]
    exact hall
  have hE : jsTrim st.inputCode = "" := by
    unfold jsTrim
    rw [h1]
    rfl
  exact ⟨hE, by simp [handleTranslate, hE], by simp [handleTranslate, hE],
    by simp [handleTranslate, hE], by simp [handleTranslate, hE],
    by simp [toastEvents, hE]⟩

theorem claim6_witness :
    (AppState.mk "JavaScript" "Python" "  \t\n " "prev" false "").inputCode.data.all
      jsWhitespaceChar = true
    ∧ (jsTrim (AppState.mk "JavaScript" "Python" "  \t\n " "prev" false "").inputCode = ""
       ∧ handleTranslate (AppState.mk "JavaScript" "Python" "  \t\n " "prev" false "")
           (StreamOutcome.ok [some "y"])
         = { AppState.mk "JavaScript" "Python" "  \t\n " "prev" false ""
              with toast := emptyInputMsg }
       ∧ handleTranslate (AppState.mk "JavaScript" "Python" "  \t\n " "prev" false "")
           (StreamOutcome.err [some "z"])
         = handleTranslate (AppState.mk "JavaScript" "Python" "  \t\n " "prev" false "")
           (StreamOutcome.ok [some "y"])
       ∧ (handleTranslate (AppState.mk "JavaScript" "Python" "  \t\n " "prev" false "")
           (StreamOutcome.ok [some "y"])).loading
         = (AppState.mk "JavaScript" "Python" "  \t\n " "prev" false "").loading
       ∧ (handleTranslate (AppState.mk "JavaScript" "Python" "  \t\n " "prev" false "")
           (StreamOutcome.ok [some "y"])).outputCode
         = (AppState.mk "JavaScript" "Python" "  \t\n " "prev" false "").outputCode
       ∧ toastEvents (AppState.mk "JavaScript" "Python" "  \t\n " "prev" false "")
           (StreamOutcome.ok [some "y"]) = [emptyInputMsg]) :=
  ⟨by decide,
   claim6_blank_input_reject _ (StreamOutcome.ok [some "y"]) (StreamOutcome.err [some "z"])
     (by decide)⟩

/-- Claim C7 counterexample: with inputLanguage and outputLanguage both the
sentinel (a pair validation does not reject), the prompt is the
code-generation template, yet the system instruction is the prose-permitting
explanation one, not the raw-code-only instruction the claim requires for
every sentinel inputLanguage. -/
theorem claim7_counterexample :
    buildPrompt naturalLanguage naturalLanguage "sort a list"
      = "Generate Natural Language code that performs the following task:\n\nsort a list"
    ∧ buildSystemInstruction naturalLanguage = explainSysInstruction
    ∧ buildSystemInstruction naturalLanguage ≠ rawCodeSysInstruction := by
  refine ⟨by decide, by decide, by decide⟩

/-- Claim C7 (amended): when inputLanguage is the sentinel and outputLanguage
is not, the Prompt Builder produces the code-generation prompt and the
raw-code-only (no prose, no fenced blocks) system instruction; the three
template branches of the if-chain are mutually exclusive and exhaustive. -/
theorem claim7_generate_branch (outLang src : String)
    (h : outLang ≠ naturalLanguage) :
    buildPrompt naturalLanguage outLang src
      = "Generate " ++ outLang ++ " code that performs the following task:\n\n" ++ src
    ∧ buildSystemInstruction outLang = rawCodeSysInstruction
    ∧ buildSystemInstruction outLang ≠ explainSysInstruction
    ∧ promptBranchIdx naturalLanguage outLang = 0
    ∧ (∀ inL outL : String,
        (promptBranchIdx inL outL = 0 ↔ inL = naturalLanguage)
        ∧ (promptBranchIdx inL outL = 1
            ↔ (inL ≠ naturalLanguage ∧ outL = naturalLanguage))
        ∧ (promptBranchIdx inL outL = 2
            ↔ (inL ≠ naturalLanguage ∧ outL ≠ naturalLanguage))) := by
  refine ⟨by simp [buildPrompt], by simp [buildSystemInstruction, h],
    by simp [buildSystemInstruction, h]; decide, by simp [promptBranchIdx], ?_⟩
  intro inL outL
  by_cases hi : inL = naturalLanguage
  · by_cases ho : outL = naturalLanguage
    · simp [promptBranchIdx, hi, ho]
    · simp [promptBranchIdx, hi, ho]
  · by_cases ho : outL = naturalLanguage
    · simp [promptBranchIdx, hi, ho]
    · simp [promptBranchIdx, hi, ho]

theorem claim7_witness :
    ("Python" : String) ≠ naturalLanguage
    ∧ (buildPrompt naturalLanguage "Python" "sort a list"
        = "Generate " ++ "Python" ++ " code that performs the following task:\n\n" ++ "sort a list"
       ∧ buildSystemInstruction "Python" = rawCodeSysInstruction
       ∧ buildSystemInstruction "Python" ≠ explainSysInstruction
       ∧ promptBranchIdx naturalLanguage "Python" = 0
       ∧ (∀ inL outL : String,
           (promptBranchIdx inL outL = 0 ↔ inL = naturalLanguage)
           ∧ (promptBranchIdx inL outL = 1
               ↔ (inL ≠ naturalLanguage ∧ outL = naturalLanguage))
           ∧ (promptBranchIdx inL outL = 2
               ↔ (inL ≠ naturalLanguage ∧ outL ≠ naturalLanguage)))) :=
  ⟨by decide, claim7_generate_branch "Python" "sort a list" (by decide)⟩

/-- Claim C8 counterexample: the end-anchored trailing-fence regex does not
remove a triple-backtick elsewhere in the text — a fence inside explanatory
text survives in the display value, and when the text ends with a fence only
that final occurrence is removed. -/
theorem claim8_counterexample :
    displayOf "note ```python\ncode``` done" = "note ```python\ncode``` done"
    ∧ displayOf "a```b" = "a```b"
    ∧ displayOf "a```b```" = "a```b" := by
  refine ⟨by decide, by decide, by decide⟩

/-- Claim C8 (amended): the trailing strip is anchored to the very end of the
string (the regex's global flag is inert), so any text that neither starts
nor ends with a triple-backtick — in particular text with a legitimate fence
strictly inside it — is displayed verbatim. -/
theorem claim8_end_anchored (s : String)
    (h1 : startsWithFence s = false)
    (h2 : endsWithFence s = false) :
    displayOf s = s := by
  have ho : stripOpenFence s = s := by
    unfold stripOpenFence
    rw [h1]
    simp
  have hc : stripCloseFence s = s := by
    unfold stripCloseFence
    rw [h2]
    simp
  unfold displayOf
  rw [ho, hc]

theorem claim8_witness :
    startsWithFence "see ```inner``` kept" = false
    ∧ endsWithFence "see ```inner``` kept" = false
    ∧ displayOf "see ```inner``` kept" = "see ```inner``` kept" :=
  ⟨by decide, by decide, claim8_end_anchored _ (by decide) (by decide)⟩

/-- Claim C9: the blank-input check runs before the identical-language check,
so a request failing both validations is rejected with the empty-input
notice, never the language one; and every rejected request produces exactly
one notice. -/
theorem claim9_validation_order (st : AppState) (o : StreamOutcome)
    (hempty : jsTrim st.inputCode = "")
    (heq : st.inputLanguage = st.outputLanguage)
    (hns : st.inputLanguage ≠ naturalLanguage) :
    (handleTranslate st o).toast = emptyInputMsg
    ∧ toastEvents st o = [emptyInputMsg]
    ∧ emptyInputMsg ≠ sameLangMsg
    ∧ (∀ st' : AppState, ∀ o' : StreamOutcome,
        (jsTrim st'.inputCode = ""
         ∨ (st'.inputLanguage = st'.outputLanguage
            ∧ st'.inputLanguage ≠ naturalLanguage)) →
        (toastEvents st' o').length = 1) := by
  refine ⟨by simp [handleTranslate, hempty], by simp [toastEvents, hempty],
    by decide, ?_⟩
  intro st' o' hrej
  by_cases hE : jsTrim st'.inputCode = ""
  · simp [toastEvents, hE]
  · rcases hrej with hcase | hcase
    · exact absurd hcase hE
    · unfold toastEvents
      rw [if_neg hE, if_pos hcase]
      rfl

theorem claim9_witness :
    jsTrim (AppState.mk "Python" "Python" " \t " "" false "").inputCode = ""
    ∧ (AppState.mk "Python" "Python" " \t " "" false "").inputLanguage
      = (AppState.mk "Python" "Python" " \t " "" false "").outputLanguage
    ∧ (AppState.mk "Python" "Python" " \t " "" false "").inputLanguage
      ≠ naturalLanguage
    ∧ ((handleTranslate (AppState.mk "Python" "Python" " \t " "" false "")
          (StreamOutcome.ok [])).toast = emptyInputMsg
       ∧ toastEvents (AppState.mk "Python" "Python" " \t " "" false "")
          (StreamOutcome.ok []) = [emptyInputMsg]
       ∧ emptyInputMsg ≠ sameLangMsg
       ∧ (∀ st' : AppState, ∀ o' : StreamOutcome,
           (jsTrim st'.inputCode = ""
            ∨ (st'.inputLanguage = st'.outputLanguage
               ∧ st'.inputLanguage ≠ naturalLanguage)) →
           (toastEvents st' o').length = 1)) :=
  ⟨by decide, rfl, by decide,
   claim9_validation_order _ (StreamOutcome.ok []) (by decide) rfl (by decide)⟩

/-- Claim C10: a fragment whose text field is absent, null or empty
contributes the empty string — the accumulator is unchanged by it — yet the
display value is still recomputed and published once for it, so the number
of publish events equals the number of fragments received, not the number of
non-empty ones. -/
theorem claim10_blank_fragment (pre post : List (Option String))
    (c : Option String) (h : chunkText c = "") :
    accumulate (pre ++ c :: post) = accumulate (pre ++ post)
    ∧ (publishes (pre ++ c :: post)).length = pre.length + 1 + post.length
    ∧ (publishes (pre ++ [c]))[pre.length]? = some (displayOf (accumulate pre)) := by
  have hstep : ∀ acc : String, accumFrom acc (c :: post) = accumFrom acc post := by
    intro acc
    show accumFrom (acc ++ chunkText c) post = accumFrom acc post
    rw [h, String.append_empty]
  refine ⟨?_, ?_, ?_⟩
  · unfold accumulate
    rw [accumFrom_append, accumFrom_append, hstep]
  · unfold publishes
    rw [publishesFrom_length]
    simp only [List.length_append, List.length_cons]
    omega
  · have hlt : pre.length < (pre ++ [c]).length := by simp
    have hg := publishesFrom_getElem (pre ++ [c]) "" pre.length hlt
    have htake : (pre ++ [c]).take (pre.length + 1) = pre ++ [c] := by
      have : (pre ++ [c]).length = pre.length + 1 := by simp
      rw [← this, List.take_length]
    rw [htake] at hg
    have hacc : accumFrom "" (pre ++ [c]) = accumulate pre := by
      rw [accumFrom_append]
      show accumFrom "" pre ++ chunkText c = accumulate pre
      rw [h, String.append_empty]
      rfl
    rw [hacc] at hg
    exact hg

theorem claim10_witness :
    chunkText none = ""
    ∧ (accumulate ([some "a"] ++ none :: [some "b"])
        = accumulate ([some "a"] ++ [some "b"])
       ∧ (publishes ([some "a"] ++ none :: [some "b"])).length
        = ([some "a"] : List (Option String)).length + 1
          + ([some "b"] : List (Option String)).length
       ∧ (publishes ([some "a"] ++ [none]))[([some "a"] : List (Option String)).length]?
        = some (displayOf (accumulate [some "a"]))) :=
  ⟨rfl, claim10_blank_fragment [some "a"] [some "b"] none rfl⟩
